import Mathlib

/-!
# jwttool: issuing signed cluster-membership tokens

A shallow embedding of `main.go`.  The program is one function, `main`, which
reads the command line, the `CLUSTER` environment variable, the security
module, the clock and three libraries (x509, base64, jwt), and which writes to
standard output, to the log, and ends the process.

Everything `main` reads is a field of `World`; everything it does is a field of
`Outcome`.  The standard-library routines whose exact behaviour the properties
depend on (`strconv.Atoi`, `base64.RawURLEncoding`, `time.Duration`
arithmetic) are modelled concretely; the x509 codec, the security module, the
jwt signer and the quoting of `strconv` stay parameters of the world, so every
theorem holds for whatever they answer.  The sample world at the end of the
definitions fills them in: its x509 encoder writes the PKIX encoding of RSA,
ECDSA and Ed25519 keys byte for byte.
-/

namespace JwtTool

/-! ## Bytes and `base64.RawURLEncoding` -/

/-- A Go `byte`. -/
abbrev Byte := Fin 256

/-- The Go conversion `byte(n)`: keep the low eight bits. -/
def byte (n : Nat) : Byte := ⟨n % 256, Nat.mod_lt n (by decide)⟩

deriving instance DecidableEq for Except

/-- The URL-safe alphabet of `encoding/base64` (`encodeURL`). -/
def encodeURL : List Char :=
  "ABCDEFGHIJKLMNOPQRSTUVWXYZabcdefghijklmnopqrstuvwxyz0123456789-_".data

/-- The table lookup `enc.encode[i]`. -/
def encChar (i : Nat) : Char := encodeURL.getD i 'A'

/-- The table lookup `enc.decodeMap[c]`: the position of `c` in the alphabet,
`none` where Go's table holds `0xff`. -/
def decodeMap (c : Char) : Option Nat :=
  if encodeURL.indexOf c < 64 then some (encodeURL.indexOf c) else none

/-- `Encoding.Encode` without padding: three bytes become four characters, a
remainder of two bytes three characters, a remainder of one byte two. -/
def encode : List Byte → List Char
  | b0 :: b1 :: b2 :: rest =>
    let val := (b0.val <<< 16) ||| (b1.val <<< 8) ||| b2.val
    encChar ((val >>> 18) &&& 0x3F) :: encChar ((val >>> 12) &&& 0x3F) ::
      encChar ((val >>> 6) &&& 0x3F) :: encChar (val &&& 0x3F) :: encode rest
  | [b0, b1] =>
    let val := (b0.val <<< 16) ||| (b1.val <<< 8)
    [encChar ((val >>> 18) &&& 0x3F), encChar ((val >>> 12) &&& 0x3F),
      encChar ((val >>> 6) &&& 0x3F)]
  | [b0] =>
    let val := b0.val <<< 16
    [encChar ((val >>> 18) &&& 0x3F), encChar ((val >>> 12) &&& 0x3F)]
  | [] => []

/-- `base64.RawURLEncoding.EncodeToString`. -/
def encodeToString (src : List Byte) : String := String.mk (encode src)

/-- The text of a `base64.CorruptInputError`. -/
def corruptInputError (n : Nat) : String :=
  "illegal base64 data at input byte " ++ toString n

/-- The four six-bit values of a quantum put together, as in `decodeQuantum`. -/
def assemble (d0 d1 d2 d3 : Nat) : Nat :=
  (d0 <<< 18) ||| (d1 <<< 12) ||| (d2 <<< 6) ||| d3

/-- `Encoding.Decode` for the unpadded, non-strict URL encoding.  `si` is the
input offset and `dbuf` the six-bit values of the quantum read so far.  Line
feeds and carriage returns are skipped, any other character outside the
alphabet is an error, and at the end of the input a quantum of two or three
characters yields one or two bytes while a quantum of one is an error. -/
def decodeFrom : List Char → Nat → List Nat → Except String (List Byte)
  | [], si, dbuf =>
    match dbuf with
    | [] => .ok []
    | [d0, d1] => .ok [byte (assemble d0 d1 0 0 >>> 16)]
    | [d0, d1, d2] =>
      .ok [byte (assemble d0 d1 d2 0 >>> 16), byte (assemble d0 d1 d2 0 >>> 8)]
    | _ => .error (corruptInputError (si - dbuf.length))
  | c :: rest, si, dbuf =>
    match decodeMap c with
    | some out =>
      match dbuf with
      | [d0, d1, d2] =>
        match decodeFrom rest (si + 1) [] with
        | .ok tl =>
          .ok (byte (assemble d0 d1 d2 out >>> 16) :: byte (assemble d0 d1 d2 out >>> 8) ::
            byte (assemble d0 d1 d2 out) :: tl)
        | .error err => .error err
      | _ => decodeFrom rest (si + 1) (dbuf ++ [out])
    | none =>
      if c = '\n' ∨ c = '\r' then decodeFrom rest (si + 1) dbuf
      else .error (corruptInputError si)

/-- `base64.RawURLEncoding.DecodeString`. -/
def decodeString (s : String) : Except String (List Byte) := decodeFrom s.data 0 []

/-! ## `strconv.Atoi` on a 64-bit platform -/

/-- The two errors `strconv.Atoi` returns. -/
inductive AtoiError
  /-- The `ErrSyntax` of `strconv`. -/
  | invalid
  /-- The `ErrRange` of `strconv`. -/
  | outOfRange
  deriving DecidableEq, Repr

/-- The text of `ErrSyntax` and of `ErrRange`. -/
def AtoiError.text : AtoiError → String
  | .invalid => "invalid syntax"
  | .outOfRange => "value out of range"

/-- `(*NumError).Error()` for an error of `Atoi`, given its argument as
`strconv.Quote` writes it. -/
def numErrorText (quotedNum : String) (e : AtoiError) : String :=
  "strconv.Atoi: parsing " ++ quotedNum ++ ": " ++ e.text

/-- The digit loop of `strconv.ParseUint(s, 10, 64)`: `none` on a character
that is not a decimal digit, `some none` once the value leaves `uint64`. -/
def parseUintFrom : List Char → Nat → Option (Option Nat)
  | [], n => some (some n)
  | c :: rest, n =>
    if 48 ≤ c.toNat ∧ c.toNat ≤ 57 then
      if 2 ^ 64 ≤ n * 10 + (c.toNat - 48) then some none
      else parseUintFrom rest (n * 10 + (c.toNat - 48))
    else none

/-- `strconv.Atoi` with a 64-bit `int`: an optional sign, at least one decimal
digit, and a value between `-2^63` and `2^63 - 1`. -/
def atoi (s : String) : Except AtoiError Int :=
  match s.data with
  | [] => .error .invalid
  | c :: rest =>
    let neg := c = '-'
    let digits := if c = '+' ∨ c = '-' then rest else c :: rest
    match digits with
    | [] => .error .invalid
    | d :: ds =>
      match parseUintFrom (d :: ds) 0 with
      | none => .error .invalid
      | some none => .error .outOfRange
      | some (some un) =>
        if neg then
          if 2 ^ 63 < un then .error .outOfRange else .ok (-(un : Int))
        else
          if 2 ^ 63 ≤ un then .error .outOfRange else .ok (un : Int)

/-! ## `time` -/

/-- Two's-complement wrap-around of a mathematical integer into `int64`. -/
def wrapInt64 (x : Int) : Int := (x + 2 ^ 63) % 2 ^ 64 - 2 ^ 63

/-- The constant `time.Hour`, in nanoseconds. -/
def hour : Int := 3600000000000

/-- The Go expression `time.Duration(exp)*24*time.Hour`: two `int64`
multiplications, each wrapping around. -/
def daysDuration (exp : Int) : Int := wrapInt64 (wrapInt64 (exp * 24) * hour)

/-- A `time.Time`, as the wall-clock instant in nanoseconds since the Unix
epoch. -/
structure Time where
  unixNano : Int
  deriving DecidableEq, Repr

/-- `Time.Add`. -/
def Time.add (t : Time) (d : Int) : Time := ⟨t.unixNano + d⟩

/-- `Time.Unix`: whole seconds since the epoch, rounded down. -/
def Time.unix (t : Time) : Int := t.unixNano / 1000000000

/-! ## Keys, tokens and the world -/

/-- The named curves of `crypto/elliptic`. -/
inductive Curve
  | P224 | P256 | P384 | P521
  deriving DecidableEq, Repr

/-- A `crypto.PublicKey`, by the dynamic type the type switch looks at. -/
inductive PublicKey
  /-- A `*rsa.PublicKey` with modulus `n` and exponent `e`. -/
  | rsa (n e : Nat)
  /-- An `*ecdsa.PublicKey` on `curve` with the point `(x, y)`. -/
  | ecdsa (curve : Curve) (x y : Nat)
  /-- An `ed25519.PublicKey`. -/
  | ed25519 (key : List Byte)
  /-- A value of any other Go type, named as `%T` prints it. -/
  | other (goType : String)
  deriving DecidableEq, Repr

/-- What `%T` prints for a public key. -/
def PublicKey.goType : PublicKey → String
  | .rsa _ _ => "*rsa.PublicKey"
  | .ecdsa _ _ _ => "*ecdsa.PublicKey"
  | .ed25519 _ => "ed25519.PublicKey"
  | .other t => t

/-- A key handle returned by the security module: what `%s` prints for it and
what `Public()` returns.  The private key never leaves the module. -/
structure Key where
  name : String
  pub : PublicKey
  deriving DecidableEq, Repr

/-- The handle returned by `hsm.New()`. -/
structure HSM where
  listKeysByName : String → Except String (List Key)

/-- The `jwt.Algo` values the program uses. -/
inductive Algo
  | RS256 | ES256 | EdDSA
  deriving DecidableEq, Repr

/-- A value stored in a token payload. -/
inductive Value
  | str (s : String)
  | int (n : Int)
  deriving DecidableEq, Repr

/-- The assignment `m[k] = v` on a Go map kept as an association list. -/
def mapSet {α : Type} : List (String × α) → String → α → List (String × α)
  | [], k, v => [(k, v)]
  | (k0, v0) :: m, k, v => if k0 = k then (k, v) :: m else (k0, v0) :: mapSet m k v

/-- A `*jwt.Token` before it is signed: its algorithm and the entries set in
its header and payload maps.  What the library itself writes into the header
for `algo` is not listed. -/
structure Token where
  algo : Algo
  header : List (String × String)
  payload : List (String × Value)
  deriving DecidableEq, Repr

/-- `jwt.New(alg)`: a fresh token, nothing set yet. -/
def Token.new (alg : Algo) : Token := ⟨alg, [], []⟩

/-- `token.Header().Set(k, v)`. -/
def Token.setHeader (t : Token) (k v : String) : Token :=
  { t with header := mapSet t.header k v }

/-- `token.Payload().Set(k, v)`. -/
def Token.setPayload (t : Token) (k : String) (v : Value) : Token :=
  { t with payload := mapSet t.payload k v }

/-- Everything `main` reads from outside. -/
structure World where
  /-- The command line, `os.Args`. -/
  args : List String
  /-- The environment: `none` for a variable that is not set. -/
  environ : String → Option String
  /-- The result of `hsm.New()`. -/
  hsmNew : Except String HSM
  /-- The reading of the `n`-th call of `time.Now()`, counted from 0. -/
  clock : Nat → Time
  /-- `x509.ParsePKIXPublicKey`. -/
  parsePKIXPublicKey : List Byte → Except String PublicKey
  /-- `x509.MarshalPKIXPublicKey`. -/
  marshalPKIXPublicKey : PublicKey → Except String (List Byte)
  /-- `token.Sign(k)`: the compact token, or the error of the signature. -/
  sign : Token → Key → Except String String
  /-- `strconv.Quote`, which the text of an `Atoi` error applies to the
  argument. -/
  quote : String → String

/-- `os.Getenv`: the empty string for a variable that is not set. -/
def World.getenv (w : World) (name : String) : String := (w.environ name).getD ""

/-- How the process ended. -/
inductive Exit
  /-- The function `main` returned: exit status 0. -/
  | returned
  /-- A call of `os.Exit(code)`. -/
  | exited (code : Nat)
  /-- A run-time panic: exit status 2. -/
  | panicked
  deriving DecidableEq, Repr

/-- The exit status of the process. -/
def Exit.status : Exit → Nat
  | .returned => 0
  | .exited code => code
  | .panicked => 2

/-- Everything `main` does that can be seen from outside. -/
structure Outcome where
  /-- What `fmt.Printf` wrote to standard output. -/
  stdout : String := ""
  /-- The messages of `log.Printf`, in order. -/
  log : List String := []
  /-- The names passed to `ListKeysByName`, in order. -/
  lookups : List String := []
  /-- The calls of `token.Sign`, in order: the token and the signing handle. -/
  signCalls : List (Token × Key) := []
  exit : Exit
  deriving DecidableEq, Repr

/-- `strings.ToLower`, on the ASCII letters.  Go also lowers letters outside
ASCII; none of them lowers to `g`, `e` or `n`, so the comparison with the
string gen comes out the same. -/
def toLower (s : String) : String := String.mk (s.data.map Char.toLower)

/-- The type switch of `main`: the signature algorithm for the dynamic type
of the signer's public key, `none` for the `default` case. -/
def jwtAlgoOf : PublicKey → Option Algo
  | .rsa _ _ => some .RS256
  | .ecdsa _ _ _ => some .ES256
  | .ed25519 _ => some .EdDSA
  | .other _ => none

/-- The cluster identity, lines 25 to 28 of `main`: the variable `CLUSTER`, or
the string default when that is empty. -/
def World.clusterName (w : World) : String :=
  if w.getenv "CLUSTER" = "" then "default" else w.getenv "CLUSTER"

/-- The function `main` of `main.go`. -/
def main (w : World) : Outcome :=
  if w.args.length ≤ 1 then
    match w.args with
    | [] => { exit := .panicked }
    | prog :: _ => { stdout := "Usage: " ++ prog ++ " command\n", exit := .returned }
  else
    let clusterName := w.clusterName
    match w.hsmNew with
    | .error err =>
      { log := ["failed to initialize HSM: " ++ err], exit := .exited 1 }
    | .ok h =>
    match h.listKeysByName ("seidan:" ++ clusterName) with
    | .error err =>
      { lookups := ["seidan:" ++ clusterName],
        log := ["failed to list HSM keys: " ++ err], exit := .exited 1 }
    | .ok [] =>
      { lookups := ["seidan:" ++ clusterName],
        log := ["failed to list HSM keys: no keys. Please generate one."],
        exit := .exited 1 }
    | .ok (k :: _) =>
    let found := "found key: " ++ k.name
    if toLower (w.args.getD 1 "") = "gen" then
      if w.args.length ≤ 3 then
        { lookups := ["seidan:" ++ clusterName], log := [found],
          stdout := "Usage: " ++ w.args.getD 0 "" ++ " gen name key [expiration]\n",
          exit := .exited 1 }
      else
        let name := w.args.getD 2 ""
        let key := w.args.getD 3 ""
        match (if w.args.length > 4 then atoi (w.args.getD 4 "") else .ok 0) with
        | .error err =>
          { lookups := ["seidan:" ++ clusterName],
            log := [found, "error: " ++ numErrorText (w.quote (w.args.getD 4 "")) err],
            exit := .exited 1 }
        | .ok exp =>
        match decodeString key with
        | .error err =>
          { lookups := ["seidan:" ++ clusterName], log := [found, "error: " ++ err],
            exit := .exited 1 }
        | .ok keyBin =>
        match w.parsePKIXPublicKey keyBin with
        | .error err =>
          { lookups := ["seidan:" ++ clusterName], log := [found, "error: " ++ err],
            exit := .exited 1 }
        | .ok _ =>
        let kid := k.pub
        match jwtAlgoOf kid with
        | none =>
          { lookups := ["seidan:" ++ clusterName],
            log := [found, "unsupported key type " ++ kid.goType], exit := .exited 1 }
        | some jwtAlgo =>
        match w.marshalPKIXPublicKey kid with
        | .error err =>
          { lookups := ["seidan:" ++ clusterName], log := [found, "error: " ++ err],
            exit := .exited 1 }
        | .ok kidBin =>
        let token := Token.new jwtAlgo
        let token := token.setHeader "kid" (encodeToString kidBin)
        let token := token.setPayload "iss" (.str clusterName)
        let token := token.setPayload "iat" (.int (w.clock 0).unix)
        let token := token.setPayload "sub" (.str key)
        let token := token.setPayload "nam" (.str name)
        let token := token.setPayload "aud" (.str "directory.atonline.com")
        let token :=
          if exp > 0 then
            token.setPayload "exp" (.int ((w.clock 1).add (daysDuration exp)).unix)
          else token
        match w.sign token k with
        | .error err =>
          { lookups := ["seidan:" ++ clusterName], log := [found, "error: " ++ err],
            signCalls := [(token, k)], exit := .exited 1 }
        | .ok res =>
          { lookups := ["seidan:" ++ clusterName], log := [found],
            signCalls := [(token, k)], stdout := res ++ "\n", exit := .returned }
    else
      { lookups := ["seidan:" ++ clusterName],
        log := [found, "no valid command provided"], exit := .returned }

/-! ## The PKIX encoding of a public key -/

/-- The prime of the field of a named curve. -/
def Curve.p : Curve → Nat
  | .P224 => 0xffffffffffffffffffffffffffffffff000000000000000000000001
  | .P256 => 0xffffffff00000001000000000000000000000000ffffffffffffffffffffffff
  | .P384 => 0xfffffffffffffffffffffffffffffffffffffffffffffffffffffffffffffffeffffffff0000000000000000ffffffff
  | .P521 => 0x1ffffffffffffffffffffffffffffffffffffffffffffffffffffffffffffffffffffffffffffffffffffffffffffffffffffffffffffffffffffffffffffffffff

/-- The coefficient `b` of the curve equation `y^2 = x^3 - 3x + b`. -/
def Curve.b : Curve → Nat
  | .P224 => 0xb4050a850c04b3abf54132565044b0b7d7bfd8ba270b39432355ffb4
  | .P256 => 0x5ac635d8aa3a93e7b3ebbd55769886bc651d06b0cc53b0f63bce3c3e27d2604b
  | .P384 => 0xb3312fa7e23ee7e4988e056be3f82d19181d9c6efe8141120314088f5013875ac656398d8a2ed19d2a85c8edd3ec2aef
  | .P521 => 0x51953eb9618e1c9a1f929a21a0b68540eea2da725b99b315f3b8b489918ef109e156193951ec7e937b1652c0bd3bb1bf073573df883d2c34f1ef451fd46b503f00

/-- The length in bytes of one coordinate. -/
def Curve.byteLen : Curve → Nat
  | .P224 => 28
  | .P256 => 32
  | .P384 => 48
  | .P521 => 66

/-- The object identifier of a named curve: the content bytes of its encoding. -/
def Curve.oid : Curve → List Byte
  | .P224 => [0x2b, 0x81, 0x04, 0x00, 0x21]
  | .P256 => [0x2a, 0x86, 0x48, 0xce, 0x3d, 0x03, 0x01, 0x07]
  | .P384 => [0x2b, 0x81, 0x04, 0x00, 0x22]
  | .P521 => [0x2b, 0x81, 0x04, 0x00, 0x23]

/-- `Curve.IsOnCurve`: both coordinates are reduced and satisfy the curve
equation. -/
def Curve.isOnCurve (c : Curve) (x y : Nat) : Bool :=
  decide (x < c.p ∧ y < c.p ∧ (y * y + 3 * x) % c.p = (x * x * x + c.b) % c.p)

/-- The big-endian bytes of `n`, on exactly `len` bytes. -/
def bytesBE : Nat → Nat → List Byte
  | 0, _ => []
  | len + 1, n => bytesBE len (n / 256) ++ [byte n]

/-- The big-endian bytes of `n` without leading zeros, at most `fuel` of them. -/
def minBytesFrom : Nat → Nat → List Byte
  | 0, _ => []
  | fuel + 1, n => if n = 0 then [] else minBytesFrom fuel (n / 256) ++ [byte n]

/-- The big-endian bytes of `n` without leading zeros; none for 0. -/
def minBytes (n : Nat) : List Byte := minBytesFrom n n

/-- The number a list of bytes stands for, big end first. -/
def fromBE (bs : List Byte) : Nat := bs.foldl (fun acc b => acc * 256 + b.val) 0

/-- The length octets of DER: one byte below 128, else the count of length
bytes and the length. -/
def derLength (n : Nat) : List Byte :=
  if n < 128 then [byte n] else byte (0x80 + (minBytes n).length) :: minBytes n

/-- A DER element: tag, length, content. -/
def derTLV (tag : Byte) (content : List Byte) : List Byte :=
  tag :: (derLength content.length ++ content)

/-- The DER `INTEGER` of a natural number. -/
def derInteger (n : Nat) : List Byte :=
  match minBytes n with
  | [] => derTLV 0x02 [0]
  | b :: bs => if b.val < 128 then derTLV 0x02 (b :: bs) else derTLV 0x02 (0 :: b :: bs)

/-- The `SubjectPublicKeyInfo` of PKIX: the algorithm identifier and the key
as a bit string. -/
def pkix (algorithm bits : List Byte) : List Byte :=
  derTLV 0x30 (derTLV 0x30 algorithm ++ derTLV 0x03 (0 :: bits))

/-! ## A sample world -/

/-- The `x509.MarshalPKIXPublicKey` of the sample world: the PKIX encoding of
an RSA key, of an ECDSA key that lies on its curve and of an Ed25519 key, and
the error of the library for a point off the curve and for any other type. -/
def sampleMarshal : PublicKey → Except String (List Byte)
  | .rsa n e =>
    .ok (pkix (derTLV 0x06 [0x2a, 0x86, 0x48, 0x86, 0xf7, 0x0d, 0x01, 0x01, 0x01] ++ [0x05, 0x00])
      (derTLV 0x30 (derInteger n ++ derInteger e)))
  | .ecdsa c x y =>
    if c.isOnCurve x y then
      .ok (pkix (derTLV 0x06 [0x2a, 0x86, 0x48, 0xce, 0x3d, 0x02, 0x01] ++ derTLV 0x06 c.oid)
        (0x04 :: (bytesBE c.byteLen x ++ bytesBE c.byteLen y)))
    else .error "x509: invalid elliptic curve public key"
  | .ed25519 key => .ok (pkix (derTLV 0x06 [0x2b, 0x65, 0x70]) key)
  | .other t => .error ("x509: unsupported public key type: " ++ t)

/-- One DER length and what follows it. -/
def readLength : List Byte → Option (Nat × List Byte)
  | [] => none
  | b :: rest =>
    if b.val < 128 then some (b.val, rest)
    else some (fromBE (rest.take (b.val - 128)), rest.drop (b.val - 128))

/-- The content of the DER element at the head of the input, and what follows
the element. -/
def readTLV : List Byte → Option (List Byte × List Byte)
  | [] => none
  | _ :: rest =>
    match readLength rest with
    | none => none
    | some (len, body) => some (body.take len, body.drop len)

/-- The RSA key a PKIX encoding would hold: the two integers inside the bit
string. -/
def rsaCandidate (der : List Byte) : Option PublicKey := do
  let (spki, _) ← readTLV der
  let (_, rest) ← readTLV spki
  let (bits, _) ← readTLV rest
  let (ints, _) ← readTLV (bits.drop 1)
  let (n, rest) ← readTLV ints
  let (e, _) ← readTLV rest
  some (.rsa (fromBE n) (fromBE e))

/-- The ECDSA key on the curve `c` a PKIX encoding would hold: the two
coordinates at its end. -/
def ecdsaCandidate (c : Curve) (der : List Byte) : PublicKey :=
  .ecdsa c (fromBE ((der.drop (der.length - 2 * c.byteLen)).take c.byteLen))
    (fromBE (der.drop (der.length - c.byteLen)))

/-- The keys an encoding could stand for, one per key family and curve. -/
def candidates (der : List Byte) : List PublicKey :=
  [.ed25519 (der.drop 12), ecdsaCandidate .P224 der, ecdsaCandidate .P256 der,
    ecdsaCandidate .P384 der, ecdsaCandidate .P521 der] ++ (rsaCandidate der).toList

/-- What the parser asks of a key beyond its encoding: a positive RSA modulus,
a positive RSA exponent that fits an `int`, an Ed25519 key of 32 bytes. -/
def wellFormed : PublicKey → Bool
  | .rsa n e => decide (0 < n ∧ 0 < e ∧ e < 2 ^ 63)
  | .ecdsa _ _ _ => true
  | .ed25519 key => decide (key.length = 32)
  | .other _ => false

/-- The `x509.ParsePKIXPublicKey` of the sample world.  It reads the RSA, ECDSA
and Ed25519 keys whose encoding is the one `sampleMarshal` writes, and answers
any other input with an error; the key families the program never meets in
the samples (DSA, X25519) are not read. -/
def sampleParse (der : List Byte) : Except String PublicKey :=
  match (candidates der).find?
      (fun pk => wellFormed pk && decide (sampleMarshal pk = .ok der)) with
  | some pk => .ok pk
  | none => .error "x509: failed to parse public key"

/-- The table `lowerhex` of `strconv`. -/
def lowerhex (n : Nat) : Char := "0123456789abcdef".data.getD n '0'

/-- How `strconv.Quote` writes one rune, with every rune above U+00FF taken as
printable. -/
def sampleQuoteRune (c : Char) : List Char :=
  if c = Char.ofNat 34 ∨ c = Char.ofNat 92 then [Char.ofNat 92, c]
  else if (0x20 ≤ c.toNat ∧ c.toNat < 0x7f) ∨ (0xa1 ≤ c.toNat ∧ c.toNat ≠ 0xad) then [c]
  else if c.toNat = 7 then [Char.ofNat 92, 'a']
  else if c.toNat = 8 then [Char.ofNat 92, 'b']
  else if c.toNat = 12 then [Char.ofNat 92, 'f']
  else if c.toNat = 10 then [Char.ofNat 92, 'n']
  else if c.toNat = 13 then [Char.ofNat 92, 'r']
  else if c.toNat = 9 then [Char.ofNat 92, 't']
  else if c.toNat = 11 then [Char.ofNat 92, 'v']
  else if c.toNat < 0x20 ∨ c.toNat = 0x7f then
    [Char.ofNat 92, 'x', lowerhex (c.toNat / 16), lowerhex (c.toNat % 16)]
  else
    [Char.ofNat 92, 'u', '0', '0', lowerhex (c.toNat / 16 % 16), lowerhex (c.toNat % 16)]

/-- The `strconv.Quote` of the sample world. -/
def sampleQuote (s : String) : String :=
  String.mk (Char.ofNat 34 :: (s.data.flatMap sampleQuoteRune ++ [Char.ofNat 34]))

/-- The `token.Sign` of the sample world: it always succeeds. -/
def sampleSign (t : Token) (_k : Key) : Except String String :=
  .ok ("signed." ++ ((t.header.lookup "kid").getD ""))

/-- The candidate host key of the samples: an Ed25519 key in PKIX form,
base64url without padding. -/
def sampleHostKey : String := "MCowBQYDK2VwAyEAAQIDBAUGBwgJCgsMDQ4PEBESExQVFhcYGRobHB0eHyA"

/-- The handle of the sample world. -/
def sampleKey (pub : PublicKey) : Key := ⟨"cluster-key", pub⟩

/-- A security module with one key, registered under `seidan:test`. -/
def sampleHSM (pub : PublicKey) : HSM :=
  ⟨fun q => if q = "seidan:test" then .ok [sampleKey pub] else .ok []⟩

/-- A world with one signing key `pub` registered under `seidan:test`, the
variable `CLUSTER` set to `test`, and the command line `cmdline`. -/
def sampleWorld (pub : PublicKey) (cmdline : List String) : World where
  args := cmdline
  environ := fun name => if name = "CLUSTER" then some "test" else none
  hsmNew := .ok (sampleHSM pub)
  clock := fun _ => ⟨1793491200000000000⟩
  parsePKIXPublicKey := sampleParse
  marshalPKIXPublicKey := sampleMarshal
  sign := sampleSign
  quote := sampleQuote

/-- An Ed25519 signing key for the samples. -/
def sampleEd25519 : PublicKey :=
  .ed25519 [0xd7, 0x5a, 0x98, 0x01, 0x82, 0xb1, 0x0a, 0xb7, 0xd5, 0x4b, 0xfe, 0xd3, 0xc9, 0x64,
    0x07, 0x3a, 0x0e, 0xe1, 0x72, 0xf3, 0xda, 0xa6, 0x23, 0x25, 0xaf, 0x02, 0x1a, 0x68, 0xf7,
    0x07, 0x51, 0x1a]

/-- An RSA signing key of 2048 bits for the samples. -/
def sampleRSA : PublicKey :=
  .rsa 0xbf6c4b8bf87f72e5e28bdd9eb5fec262d7e65d3e14de4bf10a71131d79dcfd8b69805b357f9bb7d49cbfca37befc12fc5d540cb7d14ec1924506c6730fc8d475d1c301655350cd887495e04f9ad9752b8dd4de520f6f13a67a7deb185f8928ff43a17e19608db15ca64039cbd616be779f1734249787ef94b9a684339ad8ec9036374b47f2db783e5d5f5e1d7d260c0b40b6c54a60efaa3782bf4584f697db09035305299b78d9cddab29b0ec6621b867ad4dca52b04049346d4f3fc89ecb6de10d759d9f72d33be497fabc8cc220336851dfaa1aca886ed9404c281a8f18f84f78218651d8b9ca6b40b7a127ae8f5a9b9041693318a4973c1849123081229e7
    65537

/-- The key identifier of `sampleRSA`. -/
def kidRSA : String := "MIIBIjANBgkqhkiG9w0BAQEFAAOCAQ8AMIIBCgKCAQEAv2xLi_h_cuXii92etf7CYtfmXT4U3kvxCnETHXnc_YtpgFs1f5u31Jy_yje-_BL8XVQMt9FOwZJFBsZzD8jUddHDAWVTUM2IdJXgT5rZdSuN1N5SD28Tpnp96xhfiSj_Q6F-GWCNsVymQDnL1ha-d58XNCSXh--UuaaEM5rY7JA2N0tH8tt4Pl1fXh19JgwLQLbFSmDvqjeCv0WE9pfbCQNTBSmbeNnN2rKbDsZiG4Z61NylKwQEk0bU8_yJ7LbeENdZ2fctM75Jf6vIzCIDNoUd-qGsqIbtlATCgajxj4T3ghhlHYucprQLehJ66PWpuQQWkzGKSXPBhJEjCBIp5wIDAQAB"

/-- A signing key on the curve P-256 for the samples. -/
def sampleP256 : PublicKey :=
  .ecdsa .P256 0xde1ac8121480b4958026003ab020da1ce7b83ee2f5924e7d8b1717c7e8b3c2a4
    0xd79092b8eeb8b542c89aae12f42eeeb47c446a5591b67c010bd79cb66748454d

/-- The key identifier of `sampleP256`. -/
def kidP256 : String := "MFkwEwYHKoZIzj0CAQYIKoZIzj0DAQcDQgAE3hrIEhSAtJWAJgA6sCDaHOe4PuL1kk59ixcXx-izwqTXkJK47ri1QsiarhL0Lu60fERqVZG2fAEL15y2Z0hFTQ"

/-- A signing key on the curve P-384 for the samples. -/
def sampleP384 : PublicKey :=
  .ecdsa .P384 0x6d0384cb4c536d188023454f0071564d9d649fd7c807eb9c4101de4b2c45b88fbf150e11c99024f66e9657880cf20fa1
    0xfba86cb3594c5a4cab8f781ebdaebc8cf6ab5819ce27509e48803784531b1ab1b026ecc870504d11def536da39f13845

/-- The key identifier of `sampleP384`. -/
def kidP384 : String := "MHYwEAYHKoZIzj0CAQYFK4EEACIDYgAEbQOEy0xTbRiAI0VPAHFWTZ1kn9fIB-ucQQHeSyxFuI-_FQ4RyZAk9m6WV4gM8g-h-6hss1lMWkyrj3geva68jParWBnOJ1CeSIA3hFMbGrGwJuzIcFBNEd71Nto58ThF"

/-- The key identifier of `sampleEd25519`. -/
def kidEd25519 : String := "MCowBQYDK2VwAyEA11qYAYKxCrfVS_7TyWQHOg7hcvPapiMlrwIaaPcHURo"

/-- The PKIX encoding of a key in the sample world; empty for a key that has
none. -/
def derOf (pub : PublicKey) : List Byte :=
  match sampleMarshal pub with
  | .ok der => der
  | .error _ => []

/-- The PKIX encoding behind `sampleHostKey`. -/
def sampleHostDer : List Byte :=
  pkix (derTLV 0x06 [0x2b, 0x65, 0x70])
    [1, 2, 3, 4, 5, 6, 7, 8, 9, 10, 11, 12, 13, 14, 15, 16, 17, 18, 19, 20, 21, 22, 23, 24,
      25, 26, 27, 28, 29, 30, 31, 32]

/-- The sample host key with another last character: the same bytes, with
unused trailing bits that are not zero. -/
def slackHostKey : String := "MCowBQYDK2VwAyEAAQIDBAUGBwgJCgsMDQ4PEBESExQVFhcYGRobHB0eHyB"

/-- The sample host key cut short by two characters. -/
def cutHostKey : String := "MCowBQYDK2VwAyEAAQIDBAUGBwgJCgsMDQ4PEBESExQVFhcYGRobHB0eH"

/-- A DSA signing key, a type the type switch does not know. -/
def sampleDSA : PublicKey := .other "*dsa.PublicKey"

/-- The sample host key broken over two lines, as a text wrapped at 16
characters would have it. -/
def wrappedHostKey : String := "MCowBQYDK2VwAyEA\r\nAQIDBAUGBwgJCgsMDQ4PEBESExQVFhcYGRobHB0eHyA"

/-- The token the sample world hands to the signer for the host `host1`: the
algorithm, the key identifier, and what follows the five fixed claims. -/
def sampleToken (alg : Algo) (kid : String) (more : List (String × Value)) : Token :=
  ⟨alg, [("kid", kid)],
    [("iss", .str "test"), ("iat", .int 1793491200), ("sub", .str sampleHostKey),
      ("nam", .str "host1"), ("aud", .str "directory.atonline.com")] ++ more⟩

/-- The sample world with a security module that cannot be reached. -/
def offlineWorld (cmdline : List String) : World :=
  { sampleWorld sampleEd25519 cmdline with hsmNew := .error "no token present" }

/-- The number of characters of a text that belong to the base64 alphabet. -/
def alphabetCount (cs : List Char) : Nat :=
  (cs.filter (fun c => decide (c ∈ encodeURL))).length

set_option maxRecDepth 100000

/-! ## The base64 codec -/

/-- Looking up an encoded six-bit value gives the value back. -/
theorem decodeMap_encChar (i : Nat) (h : i < 64) : decodeMap (encChar i) = some i := by
  interval_cases i <;> rfl

/-- The mask `0x3F` keeps the value modulo 64. -/
theorem and_mask (x : Nat) : x &&& 0x3F = x % 64 := Nat.and_pow_two_sub_one_eq_mod x 6

/-- A bitwise or of a multiple of `2^k` and a value below `2^k` is their sum. -/
theorem or_eq_add (k a b : Nat) (ha : 2 ^ k ∣ a) (hb : b < 2 ^ k) : a ||| b = a + b := by
  obtain ⟨c, rfl⟩ := ha
  exact (Nat.mul_add_lt_is_or hb c).symm

/-- The quantum assembled from six-bit values, as arithmetic. -/
theorem assemble_eq (d0 d1 d2 d3 : Nat) (h1 : d1 < 64) (h2 : d2 < 64) (h3 : d3 < 64) :
    assemble d0 d1 d2 d3 = d0 * 262144 + d1 * 4096 + d2 * 64 + d3 := by
  unfold assemble
  simp only [Nat.shiftLeft_eq]
  rw [or_eq_add 18 (d0 * 2 ^ 18) (d1 * 2 ^ 12) ⟨d0, by ring⟩ (by norm_num; omega),
    or_eq_add 12 _ (d2 * 2 ^ 6) ⟨d0 * 64 + d1, by ring⟩ (by norm_num; omega),
    or_eq_add 6 _ d3 ⟨d0 * 4096 + d1 * 64 + d2, by ring⟩ (by norm_num; omega)]

/-- The 24-bit value the encoder builds from three bytes, as arithmetic. -/
theorem val3_eq (b0 b1 b2 : Byte) :
    (b0.val <<< 16) ||| (b1.val <<< 8) ||| b2.val = b0.val * 65536 + b1.val * 256 + b2.val := by
  have h1 := b1.isLt
  have h2 := b2.isLt
  simp only [Nat.shiftLeft_eq]
  rw [or_eq_add 16 (b0.val * 2 ^ 16) (b1.val * 2 ^ 8) ⟨b0.val, by ring⟩ (by norm_num; omega),
    or_eq_add 8 _ b2.val ⟨b0.val * 256 + b1.val, by ring⟩ h2]

/-- The value the encoder builds from a remainder of two bytes, as arithmetic. -/
theorem val2_eq (b0 b1 : Byte) :
    (b0.val <<< 16) ||| (b1.val <<< 8) = b0.val * 65536 + b1.val * 256 := by
  have h1 := b1.isLt
  simp only [Nat.shiftLeft_eq]
  rw [or_eq_add 16 (b0.val * 2 ^ 16) (b1.val * 2 ^ 8) ⟨b0.val, by ring⟩ (by norm_num; omega)]

/-- Decoding what the encoder wrote gives the bytes back, from any offset. -/
theorem decodeFrom_encode (src : List Byte) (si : Nat) :
    decodeFrom (encode src) si [] = .ok src := by
  induction src using encode.induct generalizing si with
  | case1 b0 b1 b2 rest ih =>
    have h0 := b0.isLt
    have h1 := b1.isLt
    have h2 := b2.isLt
    simp only [encode, val3_eq, and_mask, Nat.shiftRight_eq_div_pow]
    simp only [decodeFrom, decodeMap_encChar _ (Nat.mod_lt _ (by decide : 0 < 64)), List.nil_append,
      List.cons_append, ih]
    rw [assemble_eq _ _ _ _ (Nat.mod_lt _ (by decide)) (Nat.mod_lt _ (by decide))
      (Nat.mod_lt _ (by decide))]
    simp only [Nat.shiftRight_eq_div_pow, byte]
    congr 2
    · apply Fin.ext; simp only; omega
    · congr 1
      · apply Fin.ext; simp only; omega
      · congr 1
        apply Fin.ext; simp only; omega
  | case2 b0 b1 =>
    have h0 := b0.isLt
    have h1 := b1.isLt
    simp only [encode, val2_eq, and_mask, Nat.shiftRight_eq_div_pow]
    simp only [decodeFrom, decodeMap_encChar _ (Nat.mod_lt _ (by decide : 0 < 64)), List.nil_append,
      List.cons_append]
    rw [assemble_eq _ _ _ _ (Nat.mod_lt _ (by decide)) (Nat.mod_lt _ (by decide)) (by decide)]
    simp only [Nat.shiftRight_eq_div_pow, byte]
    congr 2
    · apply Fin.ext; simp only; omega
    · congr 1
      apply Fin.ext; simp only; omega
  | case3 b0 =>
    have h0 := b0.isLt
    simp only [encode, Nat.shiftLeft_eq, and_mask, Nat.shiftRight_eq_div_pow]
    simp only [decodeFrom, decodeMap_encChar _ (Nat.mod_lt _ (by decide : 0 < 64)), List.nil_append,
      List.cons_append]
    rw [assemble_eq _ _ _ _ (Nat.mod_lt _ (by decide)) (by decide) (by decide)]
    simp only [Nat.shiftRight_eq_div_pow, byte]
    congr 2
    apply Fin.ext; simp only; omega
  | case4 => rfl

/-- `DecodeString` undoes `EncodeToString`. -/
theorem decodeString_encodeToString (src : List Byte) :
    decodeString (encodeToString src) = .ok src :=
  decodeFrom_encode src 0

/-- The decode table has no entry exactly for the characters outside the
alphabet. -/
theorem decodeMap_eq_none (c : Char) : decodeMap c = none ↔ c ∉ encodeURL := by
  unfold decodeMap
  have hl : encodeURL.length = 64 := by decide
  have := @List.indexOf_lt_length _ _ c encodeURL
  rw [hl] at this
  split <;> simp_all

/-- A character that is neither in the alphabet nor a line break makes the
decoder fail. -/
theorem decodeFrom_bad_char (cs : List Char) (si : Nat) (dbuf : List Nat)
    (h : ∃ c ∈ cs, c ∉ encodeURL ∧ c ≠ '\n' ∧ c ≠ '\r') :
    ∃ e, decodeFrom cs si dbuf = .error e := by
  induction cs generalizing si dbuf with
  | nil => simp at h
  | cons c rest ih =>
    by_cases hc : c ∉ encodeURL ∧ c ≠ '\n' ∧ c ≠ '\r'
    · have hm := (decodeMap_eq_none c).2 hc.1
      exact ⟨corruptInputError si, by simp [decodeFrom, hm, hc.2.1, hc.2.2]⟩
    · have hrest : ∃ c ∈ rest, c ∉ encodeURL ∧ c ≠ '\n' ∧ c ≠ '\r' := by
        obtain ⟨c1, hmem, hbad⟩ := h
        rcases List.mem_cons.1 hmem with rfl | hm
        · exact absurd hbad hc
        · exact ⟨c1, hm, hbad⟩
      simp only [decodeFrom]
      split
      · split
        · obtain ⟨e, he⟩ := ih (si + 1) [] hrest
          exact ⟨e, by rw [he]⟩
        · exact ih _ _ hrest
      · split
        · exact ih _ _ hrest
        · exact ⟨_, rfl⟩

/-- A last quantum of a single character makes the decoder fail. -/
theorem decodeFrom_short_quantum (cs : List Char) (si : Nat) (dbuf : List Nat)
    (hd : dbuf.length ≤ 3) (h : (alphabetCount cs + dbuf.length) % 4 = 1) :
    ∃ e, decodeFrom cs si dbuf = .error e := by
  induction cs generalizing si dbuf with
  | nil =>
    rcases dbuf with _ | ⟨d0, _ | ⟨d1, _ | ⟨d2, _ | ⟨d3, tl⟩⟩⟩⟩ <;>
      simp [alphabetCount] at h hd
    exact ⟨_, rfl⟩
  | cons c rest ih =>
    simp only [decodeFrom]
    split
    · rename_i out hm
      have hin : c ∈ encodeURL := by
        by_contra hn
        rw [(decodeMap_eq_none c).2 hn] at hm
        exact absurd hm (by simp)
      have hcount : alphabetCount (c :: rest) = alphabetCount rest + 1 := by
        simp [alphabetCount, List.filter_cons, hin]
      split
      · obtain ⟨e, he⟩ := ih (si + 1) [] (by simp) (by simp at h ⊢; omega)
        exact ⟨e, by rw [he]⟩
      · rename_i hne
        have hlen : dbuf.length ≠ 3 := by
          intro h3
          rcases dbuf with _ | ⟨d0, _ | ⟨d1, _ | ⟨d2, _ | ⟨d3, tl⟩⟩⟩⟩ <;> simp at h3
          exact hne d0 d1 d2 rfl
        exact ih _ _ (by simp; omega) (by simp; omega)
    · rename_i hm
      have hout : c ∉ encodeURL := (decodeMap_eq_none c).1 hm
      have hcount : alphabetCount (c :: rest) = alphabetCount rest := by
        simp [alphabetCount, List.filter_cons, hout]
      split
      · exact ih _ _ hd (by omega)
      · exact ⟨_, rfl⟩

/-- Without such a character and such a quantum the decoder succeeds. -/
theorem decodeFrom_ok (cs : List Char) (si : Nat) (dbuf : List Nat)
    (hd : dbuf.length ≤ 3) (h : (alphabetCount cs + dbuf.length) % 4 ≠ 1)
    (hc : ∀ c ∈ cs, c ∈ encodeURL ∨ c = '\n' ∨ c = '\r') :
    ∃ bs, decodeFrom cs si dbuf = .ok bs := by
  induction cs generalizing si dbuf with
  | nil =>
    rcases dbuf with _ | ⟨d0, _ | ⟨d1, _ | ⟨d2, _ | ⟨d3, tl⟩⟩⟩⟩ <;>
      simp [alphabetCount] at h hd <;> exact ⟨_, rfl⟩
  | cons c rest ih =>
    have hrest : ∀ c ∈ rest, c ∈ encodeURL ∨ c = '\n' ∨ c = '\r' :=
      fun c1 h1 => hc c1 (List.mem_cons_of_mem _ h1)
    simp only [decodeFrom]
    split
    · rename_i out hm
      have hin : c ∈ encodeURL := by
        by_contra hn
        rw [(decodeMap_eq_none c).2 hn] at hm
        exact absurd hm (by simp)
      have hcount : alphabetCount (c :: rest) = alphabetCount rest + 1 := by
        simp [alphabetCount, List.filter_cons, hin]
      split
      · obtain ⟨bs, he⟩ := ih (si + 1) [] (by simp) (by simp at h ⊢; omega) hrest
        exact ⟨_, by rw [he]⟩
      · rename_i hne
        have hlen : dbuf.length ≠ 3 := by
          intro h3
          rcases dbuf with _ | ⟨d0, _ | ⟨d1, _ | ⟨d2, _ | ⟨d3, tl⟩⟩⟩⟩ <;> simp at h3
          exact hne d0 d1 d2 rfl
        exact ih _ _ (by simp; omega) (by simp; omega) hrest
    · rename_i hm
      have hout : c ∉ encodeURL := (decodeMap_eq_none c).1 hm
      have hcount : alphabetCount (c :: rest) = alphabetCount rest := by
        simp [alphabetCount, List.filter_cons, hout]
      split
      · exact ih _ _ hd (by omega) hrest
      · rename_i hnl
        rcases hc c (List.mem_cons_self _ _) with h1 | h1 | h1
        · exact absurd h1 hout
        · exact absurd (Or.inl h1) hnl
        · exact absurd (Or.inr h1) hnl

/-- The decoder rejects exactly the texts with a character that is neither in
the alphabet nor a line break, and those whose alphabet characters number 1
modulo 4. -/
theorem decodeString_error_iff (s : String) :
    (∃ e, decodeString s = .error e) ↔
      (∃ c ∈ s.data, c ∉ encodeURL ∧ c ≠ '\n' ∧ c ≠ '\r') ∨ alphabetCount s.data % 4 = 1 := by
  constructor
  · intro ⟨e, he⟩
    by_contra hcon
    push_neg at hcon
    obtain ⟨bs, hbs⟩ := decodeFrom_ok s.data 0 [] (by simp) (by simpa using hcon.2)
      (fun c hc => by
        by_cases h1 : c ∈ encodeURL
        · exact Or.inl h1
        · by_cases h2 : c = '\n'
          · exact Or.inr (Or.inl h2)
          · exact Or.inr (Or.inr (hcon.1 c hc h1 h2)))
    unfold decodeString at he
    rw [hbs] at he
    exact absurd he (by simp)
  · rintro (h | h)
    · exact decodeFrom_bad_char s.data 0 [] h
    · exact decodeFrom_short_quantum s.data 0 [] (by simp) (by simpa using h)

/-! ## Numbers and time -/

/-- The digit loop never returns a value outside `uint64`. -/
theorem parseUintFrom_lt (cs : List Char) (n un : Nat) (hn : n < 2 ^ 64)
    (h : parseUintFrom cs n = some (some un)) : un < 2 ^ 64 := by
  induction cs generalizing n with
  | nil =>
    simp only [parseUintFrom, Option.some.injEq] at h
    omega
  | cons c rest ih =>
    simp only [parseUintFrom] at h
    split at h
    · split at h
      · simp at h
      · exact ih _ (by omega) h
    · simp at h

/-- What `atoi` accepts is an `int64`. -/
theorem atoi_range (s : String) (d : Int) (h : atoi s = .ok d) :
    -(2 : Int) ^ 63 ≤ d ∧ d < (2 : Int) ^ 63 := by
  unfold atoi at h
  split at h
  · simp at h
  · dsimp only at h
    split at h
    · simp at h
    · split at h
      · simp at h
      · simp at h
      · split at h
        · split at h
          · simp at h
          · simp only [Except.ok.injEq] at h
            omega
        · split at h
          · simp at h
          · simp only [Except.ok.injEq] at h
            omega

/-- Up to 106751 days the duration is exact: nothing wraps around. -/
theorem daysDuration_exact (d : Int) (h0 : 0 ≤ d) (h1 : d ≤ 106751) :
    daysDuration d = d * 86400 * 1000000000 := by
  unfold daysDuration wrapInt64 hour
  omega

/-! ## The paths through `main` -/

/-- The first four arguments are not touched by cutting the list after them,
nor by what is put behind the cut. -/
theorem getD_take_append (l more : List String) (i : Nat) (hi : i < 4)
    (hl : 4 ≤ l.length) : (l.take 4 ++ more).getD i "" = l.getD i "" := by
  rcases l with _ | ⟨a, _ | ⟨b, _ | ⟨c, _ | ⟨e, rest⟩⟩⟩⟩
  · simp at hl
  · simp at hl
  · simp at hl
  · simp at hl
  · interval_cases i <;> rfl

/-- The cluster identity read off the environment. -/
theorem clusterName_eq (w : World) :
    w.clusterName = match w.environ "CLUSTER" with
      | some c => if c = "" then "default" else c
      | none => "default" := by
  unfold World.clusterName World.getenv
  cases w.environ "CLUSTER" <;> simp

/-- Whenever the signer is called, every earlier step of `gen` has succeeded,
the signing handle is the first key of the lookup, and the token is the one
the steps before have built. -/
theorem main_signCalls (w : World) (tok : Token) (k : Key)
    (h : (tok, k) ∈ (main w).signCalls) :
    ∃ hs ks exp keyBin pk algo kidBin,
      1 < w.args.length ∧ w.hsmNew = .ok hs ∧
      hs.listKeysByName ("seidan:" ++ w.clusterName) = .ok (k :: ks) ∧
      toLower (w.args.getD 1 "") = "gen" ∧ 3 < w.args.length ∧
      (if w.args.length > 4 then atoi (w.args.getD 4 "") else .ok 0) = .ok exp ∧
      decodeString (w.args.getD 3 "") = .ok keyBin ∧
      w.parsePKIXPublicKey keyBin = .ok pk ∧
      jwtAlgoOf k.pub = some algo ∧
      w.marshalPKIXPublicKey k.pub = .ok kidBin ∧
      tok = ⟨algo, [("kid", encodeToString kidBin)],
        [("iss", .str w.clusterName), ("iat", .int (w.clock 0).unix),
          ("sub", .str (w.args.getD 3 "")), ("nam", .str (w.args.getD 2 "")),
          ("aud", .str "directory.atonline.com")] ++
        (if exp > 0 then [("exp", .int ((w.clock 1).add (daysDuration exp)).unix)] else [])⟩ := by
  unfold main at h
  split at h
  · split at h <;> simp at h
  · dsimp only at h
    split at h
    · simp at h
    · rename_i hs hnew
      split at h
      · simp at h
      · simp at h
      · rename_i k0 ks hlist
        split at h
        · rename_i hgen
          split at h
          · simp at h
          · split at h
            · simp at h
            · rename_i exp hexp
              split at h
              · simp at h
              · rename_i keyBin hdec
                split at h
                · simp at h
                · rename_i pk hparse
                  split at h
                  · simp at h
                  · rename_i algo halgo
                    split at h
                    · simp at h
                    · rename_i kidBin hmar
                      split at h <;>
                      · simp only [List.mem_singleton, Prod.mk.injEq] at h
                        obtain ⟨htok, rfl⟩ := h
                        refine ⟨hs, ks, exp, keyBin, pk, algo, kidBin, by omega, hnew, hlist, hgen,
                          by omega, hexp, hdec, hparse, halgo, hmar, ?_⟩
                        rw [htok]
                        split <;> simp [Token.new, Token.setHeader, Token.setPayload, mapSet]
        · simp at h

/-- A `gen` run with a name and a key ends in one of three ways: it exits with
status 1 before the signer is called, it exits with status 1 because the
signer failed, or it prints what the signer returned and returns. -/
theorem main_gen_outcome (w : World) (hlen : 3 < w.args.length)
    (hgen : toLower (w.args.getD 1 "") = "gen") :
    ((main w).signCalls = [] ∧ (main w).exit = .exited 1 ∧ (main w).stdout = "") ∨
    (∃ tok k err, (main w).signCalls = [(tok, k)] ∧ w.sign tok k = .error err ∧
      (main w).exit = .exited 1 ∧ (main w).stdout = "") ∨
    (∃ tok k res, (main w).signCalls = [(tok, k)] ∧ w.sign tok k = .ok res ∧
      (main w).exit = .returned ∧ (main w).stdout = res ++ "\n") := by
  have h1 : ¬ w.args.length ≤ 1 := by omega
  have h3 : ¬ w.args.length ≤ 3 := by omega
  rcases hnew : w.hsmNew with e | hs
  · left; simp only [main, h1, hnew, ↓reduceIte, and_self]
  rcases hlist : hs.listKeysByName ("seidan:" ++ w.clusterName) with e | (_ | ⟨k, ks⟩)
  · left; simp only [main, h1, hnew, hlist, ↓reduceIte, and_self]
  · left; simp only [main, h1, hnew, hlist, ↓reduceIte, and_self]
  rcases hexp : (if w.args.length > 4 then atoi (w.args.getD 4 "") else Except.ok 0) with e | exp
  · left; simp only [main, h1, h3, hnew, hlist, hgen, hexp, ↓reduceIte, and_self]
  rcases hdec : decodeString (w.args.getD 3 "") with e | keyBin
  · left; simp only [main, h1, h3, hnew, hlist, hgen, hexp, hdec, ↓reduceIte, and_self]
  rcases hpar : w.parsePKIXPublicKey keyBin with e | pk
  · left; simp only [main, h1, h3, hnew, hlist, hgen, hexp, hdec, hpar, ↓reduceIte, and_self]
  rcases halg : jwtAlgoOf k.pub with _ | algo
  · left; simp only [main, h1, h3, hnew, hlist, hgen, hexp, hdec, hpar, halg, ↓reduceIte, and_self]
  rcases hmar : w.marshalPKIXPublicKey k.pub with e | kidBin
  · left
    simp only [main, h1, h3, hnew, hlist, hgen, hexp, hdec, hpar, halg, hmar, ↓reduceIte, and_self]
  right
  simp only [main, h1, h3, hnew, hlist, hgen, hexp, hdec, hpar, halg, hmar, ↓reduceIte]
  split
  · rename_i err hsig
    exact Or.inl ⟨_, _, err, rfl, hsig, rfl, rfl⟩
  · rename_i res hsig
    exact Or.inr ⟨_, _, res, rfl, hsig, rfl, rfl⟩

/-- A `gen` run without both a name and a key exits with status 1 and never
reaches the signer. -/
theorem main_gen_short (w : World) (hlen : 1 < w.args.length) (h3 : w.args.length ≤ 3)
    (hgen : toLower (w.args.getD 1 "") = "gen") :
    (main w).exit = .exited 1 ∧ (main w).signCalls = [] := by
  have h1 : ¬ w.args.length ≤ 1 := by omega
  rcases hnew : w.hsmNew with e | hs
  · simp only [main, h1, hnew, ↓reduceIte, and_self]
  rcases hlist : hs.listKeysByName ("seidan:" ++ w.clusterName) with e | (_ | ⟨k, ks⟩)
  · simp only [main, h1, hnew, hlist, ↓reduceIte, and_self]
  · simp only [main, h1, hnew, hlist, ↓reduceIte, and_self]
  · simp only [main, h1, h3, hnew, hlist, hgen, ↓reduceIte, and_self]

/-- A `gen` run whose arguments pass every check and whose signing key has an
algorithm and an encoding calls the signer once, with the first key of the
lookup and a token of that algorithm. -/
theorem main_gen_signs (w : World) (hs : HSM) (k : Key) (ks : List Key) (days : Int)
    (keyBin kidBin : List Byte) (pk : PublicKey) (algo : Algo)
    (hlen : 3 < w.args.length) (hgen : toLower (w.args.getD 1 "") = "gen")
    (hnew : w.hsmNew = .ok hs)
    (hlist : hs.listKeysByName ("seidan:" ++ w.clusterName) = .ok (k :: ks))
    (hexp : (if w.args.length > 4 then atoi (w.args.getD 4 "") else .ok 0) = .ok days)
    (hdec : decodeString (w.args.getD 3 "") = .ok keyBin)
    (hpar : w.parsePKIXPublicKey keyBin = .ok pk)
    (halg : jwtAlgoOf k.pub = some algo)
    (hmar : w.marshalPKIXPublicKey k.pub = .ok kidBin) :
    ∃ tok, (main w).signCalls = [(tok, k)] ∧ tok.algo = algo := by
  have h1 : ¬ w.args.length ≤ 1 := by omega
  have h3 : ¬ w.args.length ≤ 3 := by omega
  simp only [main, h1, h3, hnew, hlist, hgen, hexp, hdec, hpar, halg, hmar, ↓reduceIte]
  split <;> exact ⟨_, rfl, by split <;> rfl⟩

/-- Once the security module is there, `main` makes exactly one lookup, under
the prefixed cluster identity. -/
theorem main_lookups_ok (w : World) (hs : HSM) (hlen : 1 < w.args.length)
    (hnew : w.hsmNew = .ok hs) :
    (main w).lookups = ["seidan:" ++ w.clusterName] := by
  have h1 : ¬ w.args.length ≤ 1 := by omega
  unfold main
  simp only [h1, hnew, ↓reduceIte]
  (repeat' split) <;> rfl

/-- No lookup is ever made under another name. -/
theorem main_lookups_mem (w : World) (q : String) (h : q ∈ (main w).lookups) :
    q = "seidan:" ++ w.clusterName := by
  by_cases h1 : w.args.length ≤ 1
  · unfold main at h
    simp only [h1, ↓reduceIte] at h
    split at h <;> simp at h
  · rcases hnew : w.hsmNew with e | hs
    · simp [main, h1, hnew] at h
    · rw [main_lookups_ok w hs (by omega) hnew] at h
      simpa using h

/-! ## The sample keys -/

/-- The sample host key decodes to the 44 bytes of its PKIX form. -/
theorem sampleHostKey_decodes : decodeString sampleHostKey = .ok sampleHostDer := by
  decide

/-- The sample world parses the sample host key as an Ed25519 key. -/
theorem sampleHostKey_parses :
    sampleParse sampleHostDer =
      .ok (.ed25519 [1, 2, 3, 4, 5, 6, 7, 8, 9, 10, 11, 12, 13, 14, 15, 16, 17, 18, 19, 20, 21,
        22, 23, 24, 25, 26, 27, 28, 29, 30, 31, 32]) := by
  decide

/-- The sample RSA key has a PKIX encoding, the one written in `kidRSA`. -/
theorem sampleRSA_marshals :
    sampleMarshal sampleRSA = .ok (derOf sampleRSA) ∧
      encodeToString (derOf sampleRSA) = kidRSA := by
  decide

/-- The sample P-256 key has a PKIX encoding, the one written in `kidP256`. -/
theorem sampleP256_marshals :
    sampleMarshal sampleP256 = .ok (derOf sampleP256) ∧
      encodeToString (derOf sampleP256) = kidP256 := by
  decide

/-- The sample P-384 key has a PKIX encoding, the one written in `kidP384`. -/
theorem sampleP384_marshals :
    sampleMarshal sampleP384 = .ok (derOf sampleP384) ∧
      encodeToString (derOf sampleP384) = kidP384 := by
  decide

/-- The sample Ed25519 key has a PKIX encoding, the one written in
`kidEd25519`. -/
theorem sampleEd25519_marshals :
    sampleMarshal sampleEd25519 = .ok (derOf sampleEd25519) ∧
      encodeToString (derOf sampleEd25519) = kidEd25519 := by
  decide

/-! ## The algorithm follows the signer's key type -/

/-- C1: in a `gen` run whose arguments pass every check and whose signing key
the x509 library can encode, the signer is called with a token of algorithm
RS256 when the signing handle's public key is an RSA key, ES256 when it is an
elliptic-curve P-256 key and EdDSA when it is an Ed25519 key; and whenever two
runs, in whatever worlds, hand a token to the signer and their signers have
the same key type, the two tokens carry the same algorithm, whatever the host
key, the host name and the expiration are. -/
theorem gen_algorithm_by_signer_key_type (w : World) (hs : HSM) (k : Key) (ks : List Key)
    (days : Int) (keyBin kidBin : List Byte) (pk : PublicKey)
    (hlen : 3 < w.args.length) (hgen : toLower (w.args.getD 1 "") = "gen")
    (hnew : w.hsmNew = .ok hs)
    (hlist : hs.listKeysByName ("seidan:" ++ w.clusterName) = .ok (k :: ks))
    (hexp : (if w.args.length > 4 then atoi (w.args.getD 4 "") else .ok 0) = .ok days)
    (hdec : decodeString (w.args.getD 3 "") = .ok keyBin)
    (hpar : w.parsePKIXPublicKey keyBin = .ok pk)
    (hmar : w.marshalPKIXPublicKey k.pub = .ok kidBin) :
    (∀ n e, k.pub = .rsa n e →
      ∃ tok, (main w).signCalls = [(tok, k)] ∧ tok.algo = .RS256) ∧
    (∀ x y, k.pub = .ecdsa .P256 x y →
      ∃ tok, (main w).signCalls = [(tok, k)] ∧ tok.algo = .ES256) ∧
    (∀ key, k.pub = .ed25519 key →
      ∃ tok, (main w).signCalls = [(tok, k)] ∧ tok.algo = .EdDSA) ∧
    (∀ tok1 k1 w2 tok2 k2, (tok1, k1) ∈ (main w).signCalls →
      (tok2, k2) ∈ (main w2).signCalls → k2.pub.goType = k1.pub.goType →
      tok2.algo = tok1.algo) := by
  refine ⟨?_, ?_, ?_, ?_⟩
  · intro n e hk
    exact main_gen_signs w hs k ks days keyBin kidBin pk .RS256 hlen hgen hnew hlist hexp hdec
      hpar (by rw [hk]; rfl) hmar
  · intro x y hk
    exact main_gen_signs w hs k ks days keyBin kidBin pk .ES256 hlen hgen hnew hlist hexp hdec
      hpar (by rw [hk]; rfl) hmar
  · intro key hk
    exact main_gen_signs w hs k ks days keyBin kidBin pk .EdDSA hlen hgen hnew hlist hexp hdec
      hpar (by rw [hk]; rfl) hmar
  · intro tok1 k1 w2 tok2 k2 h1 h2 hty
    obtain ⟨_, _, _, _, _, algo1, _, _, _, _, _, _, _, _, _, halgo1, _, rfl⟩ :=
      main_signCalls w tok1 k1 h1
    obtain ⟨_, _, _, _, _, algo2, _, _, _, _, _, _, _, _, _, halgo2, _, rfl⟩ :=
      main_signCalls w2 tok2 k2 h2
    show algo2 = algo1
    cases hk1 : k1.pub <;> cases hk2 : k2.pub <;>
      simp_all [jwtAlgoOf, PublicKey.goType]

/-- C1, on samples: for the host `host1`, an RSA signing key of 2048 bits gives
a token with RS256, a key on P-256 one with ES256 and an Ed25519 key one with
EdDSA. -/
theorem gen_algorithm_by_signer_key_type_witness :
    (∃ tok, (main (sampleWorld sampleRSA
        ["jwttool", "gen", "host1", sampleHostKey])).signCalls = [(tok, sampleKey sampleRSA)] ∧
      tok.algo = .RS256) ∧
    (∃ tok, (main (sampleWorld sampleP256
        ["jwttool", "gen", "host1", sampleHostKey])).signCalls = [(tok, sampleKey sampleP256)] ∧
      tok.algo = .ES256) ∧
    (∃ tok, (main (sampleWorld sampleEd25519
        ["jwttool", "gen", "host1", sampleHostKey])).signCalls =
        [(tok, sampleKey sampleEd25519)] ∧
      tok.algo = .EdDSA) :=
  ⟨(gen_algorithm_by_signer_key_type
      (sampleWorld sampleRSA ["jwttool", "gen", "host1", sampleHostKey])
      (sampleHSM sampleRSA) (sampleKey sampleRSA) [] 0 _ _ _
      (by decide) (by decide) rfl (by decide) (by decide) sampleHostKey_decodes
      sampleHostKey_parses sampleRSA_marshals.1).1 _ _ rfl,
    (gen_algorithm_by_signer_key_type
      (sampleWorld sampleP256 ["jwttool", "gen", "host1", sampleHostKey])
      (sampleHSM sampleP256) (sampleKey sampleP256) [] 0 _ _ _
      (by decide) (by decide) rfl (by decide) (by decide) sampleHostKey_decodes
      sampleHostKey_parses sampleP256_marshals.1).2.1 _ _ rfl,
    (gen_algorithm_by_signer_key_type
      (sampleWorld sampleEd25519 ["jwttool", "gen", "host1", sampleHostKey])
      (sampleHSM sampleEd25519) (sampleKey sampleEd25519) [] 0 _ _ _
      (by decide) (by decide) rfl (by decide) (by decide) sampleHostKey_decodes
      sampleHostKey_parses sampleEd25519_marshals.1).2.2.1 _ rfl⟩

/-- C2, as stated, fails in two ways.  A signing key on the curve P-384 is
outside the set RSA, EC-P256, Ed25519 and has a PKIX encoding, yet `gen` calls
the signer with an ES256 token and never reports an unsupported key type:
this is so when the signer fails, and when the signer succeeds the token is
printed and the status is 0.  And with a DSA signing key and a key argument
that is not base64, what is reported is the argument, not the key type. -/
theorem gen_accepts_ecdsa_p384 :
    sampleMarshal sampleP384 = .ok (derOf sampleP384) ∧
      (main { sampleWorld sampleP384 ["jwttool", "gen", "host1", sampleHostKey] with
        sign := fun _ _ => .error "signature refused" }).signCalls =
        [(sampleToken .ES256 kidP384 [], sampleKey sampleP384)] ∧
      (main { sampleWorld sampleP384 ["jwttool", "gen", "host1", sampleHostKey] with
        sign := fun _ _ => .error "signature refused" }).log =
        ["found key: cluster-key", "error: signature refused"] ∧
      (main (sampleWorld sampleP384 ["jwttool", "gen", "host1", sampleHostKey])).signCalls =
        [(sampleToken .ES256 kidP384 [], sampleKey sampleP384)] ∧
      (main (sampleWorld sampleP384 ["jwttool", "gen", "host1", sampleHostKey])).log =
        ["found key: cluster-key"] ∧
      (main (sampleWorld sampleP384 ["jwttool", "gen", "host1", sampleHostKey])).stdout =
        "signed." ++ kidP384 ++ "\n" ∧
      (main (sampleWorld sampleP384
        ["jwttool", "gen", "host1", sampleHostKey])).exit.status = 0 ∧
      (main (sampleWorld sampleDSA ["jwttool", "gen", "host1", "not base64!"])).log =
        ["found key: cluster-key", "error: illegal base64 data at input byte 3"] := by
  decide

/-- C2, amended: when the public key of the signing handle is neither an RSA
key, nor an ECDSA key on any curve, nor an Ed25519 key, every `gen` run exits
with status 1, never calls the signer and prints no token (nothing at all once
a name and a key are given); and when the arguments pass the checks that come
first, the log reports the unsupported key type. -/
theorem gen_unsupported_key_type (w : World) (hs : HSM) (k : Key) (ks : List Key)
    (hlen : 1 < w.args.length) (hgen : toLower (w.args.getD 1 "") = "gen")
    (hnew : w.hsmNew = .ok hs)
    (hlist : hs.listKeysByName ("seidan:" ++ w.clusterName) = .ok (k :: ks))
    (hrsa : ∀ n e, k.pub ≠ .rsa n e) (hec : ∀ c x y, k.pub ≠ .ecdsa c x y)
    (hed : ∀ key, k.pub ≠ .ed25519 key) :
    (main w).exit = .exited 1 ∧ (main w).exit.status ≠ 0 ∧ (main w).signCalls = [] ∧
    (3 < w.args.length → (main w).stdout = "") ∧
    (∀ days keyBin pk, 3 < w.args.length →
      (if w.args.length > 4 then atoi (w.args.getD 4 "") else .ok 0) = .ok days →
      decodeString (w.args.getD 3 "") = .ok keyBin →
      w.parsePKIXPublicKey keyBin = .ok pk →
      (main w).log = ["found key: " ++ k.name, "unsupported key type " ++ k.pub.goType]) := by
  have halg : jwtAlgoOf k.pub = none := by
    cases hk : k.pub with
    | rsa n e => exact absurd hk (hrsa n e)
    | ecdsa c x y => exact absurd hk (hec c x y)
    | ed25519 key => exact absurd hk (hed key)
    | other t => rfl
  have hsign : (main w).signCalls = [] := by
    rcases hsc : (main w).signCalls with _ | ⟨⟨tok, k2⟩, rest⟩
    · rfl
    · obtain ⟨hs2, ks2, _, _, _, algo, _, _, hnew2, hlist2, _, _, _, _, _, halg2, _, _⟩ :=
        main_signCalls w tok k2 (by rw [hsc]; exact List.mem_cons_self _ _)
      rw [hnew, Except.ok.injEq] at hnew2
      subst hnew2
      rw [hlist, Except.ok.injEq, List.cons.injEq] at hlist2
      rw [← hlist2.1, halg] at halg2
      exact absurd halg2 (by simp)
  have h1 : ¬ w.args.length ≤ 1 := by omega
  have hexit : (main w).exit = .exited 1 ∧ (3 < w.args.length → (main w).stdout = "") := by
    by_cases h3 : w.args.length ≤ 3
    · exact ⟨(main_gen_short w hlen h3 hgen).1, fun h => absurd h (by omega)⟩
    · rcases main_gen_outcome w (by omega) hgen with ⟨_, he, ho⟩ | ⟨_, _, _, hsc, _⟩ |
        ⟨_, _, _, hsc, _⟩
      · exact ⟨he, fun _ => ho⟩
      · rw [hsign] at hsc
        exact absurd hsc (by simp)
      · rw [hsign] at hsc
        exact absurd hsc (by simp)
  refine ⟨hexit.1, ?_, hsign, hexit.2, ?_⟩
  · rw [hexit.1]
    simp [Exit.status]
  · intro days keyBin pk h3 hexp hdec hpar
    have h3 : ¬ w.args.length ≤ 3 := by omega
    simp only [main, h1, h3, hnew, hlist, hgen, hexp, hdec, hpar, halg, ↓reduceIte]

/-- C2 amended, on a sample: a DSA signing key is refused, and with a host
key that parses the log names the key type. -/
theorem gen_unsupported_key_type_witness :
    (main (sampleWorld sampleDSA ["jwttool", "gen", "host1", sampleHostKey])).exit =
        .exited 1 ∧
      (main (sampleWorld sampleDSA ["jwttool", "gen", "host1", sampleHostKey])).signCalls =
        [] ∧
      (main (sampleWorld sampleDSA ["jwttool", "gen", "host1", sampleHostKey])).log =
        ["found key: cluster-key", "unsupported key type *dsa.PublicKey"] :=
  have h := gen_unsupported_key_type
    (sampleWorld sampleDSA ["jwttool", "gen", "host1", sampleHostKey])
    (sampleHSM sampleDSA) (sampleKey sampleDSA) []
    (by decide) (by decide) rfl (by decide) (by simp [sampleKey, sampleDSA])
    (by simp [sampleKey, sampleDSA]) (by simp [sampleKey, sampleDSA])
  ⟨h.1, h.2.2.1, h.2.2.2.2 0 _ _ (by decide) (by decide) sampleHostKey_decodes
    sampleHostKey_parses⟩

/-! ## The expiration claim -/

/-- What `gen` puts into the token for the day count `d`: no `exp` claim when
`d` is not positive, and otherwise the second clock reading moved by the
wrapped duration; the `iat` claim is the first clock reading. -/
theorem gen_exp_value (w : World) (tok : Token) (k : Key)
    (h : (tok, k) ∈ (main w).signCalls) :
    ∃ d, (if w.args.length > 4 then atoi (w.args.getD 4 "") else .ok 0) = .ok d ∧
      tok.payload.lookup "iat" = some (.int (w.clock 0).unix) ∧
      (d ≤ 0 → tok.payload.lookup "exp" = none) ∧
      (0 < d → tok.payload.lookup "exp" =
        some (.int ((w.clock 1).add (daysDuration d)).unix)) := by
  obtain ⟨_, _, d, _, _, _, _, _, _, _, _, _, hexp, _, _, _, _, rfl⟩ := main_signCalls w tok k h
  refine ⟨d, hexp, by simp [List.lookup], ?_, ?_⟩
  · intro hd
    have : ¬ d > 0 := by omega
    simp [List.lookup, this]
  · intro hd
    simp [List.lookup, hd]

/-- Up to 106751 days, and when both clock readings fall into the same second,
the expiration is the issue time plus `d * 86400`. -/
theorem exp_exact_same_second (t0 t1 : Time) (d : Int) (h0 : 0 < d) (h1 : d ≤ 106751)
    (hsame : t1.unix = t0.unix) :
    (t1.add (daysDuration d)).unix = t0.unix + d * 86400 := by
  rw [daysDuration_exact d (by omega) h1]
  unfold Time.unix Time.add at *
  simp only
  omega

/-- C3, at a failing input: the argument 106752 parses, the duration of 106752
days wraps around to a negative number of nanoseconds, and the token of the
sample world carries `iat` 1793491200 and `exp` -7429880074, which is not
`iat + 106752 * 86400`. -/
theorem gen_expiration_wraps_around :
    atoi "106752" = .ok 106752 ∧
      daysDuration 106752 = -9223371273709551616 ∧
      (main (sampleWorld sampleP256
        ["jwttool", "gen", "host1", sampleHostKey, "106752"])).signCalls =
        [(sampleToken .ES256 kidP256 [("exp", .int (-7429880074))], sampleKey sampleP256)] ∧
      (1793491200 : Int) + 106752 * 86400 ≠ -7429880074 := by
  decide

/-! ## The claim set -/

/-- C4: in every `gen` run that returns, the signer was called once, its result
is what was printed, and the payload it was handed has exactly the claims iss,
iat, sub, nam, aud and, only when the day count is positive, exp; iss is the
cluster identity, iat the clock reading in whole seconds, sub the key argument
as it was typed, nam the name argument and aud the fixed directory name. -/
theorem gen_payload_claims (w : World) (hlen : 1 < w.args.length)
    (hgen : toLower (w.args.getD 1 "") = "gen") (hret : (main w).exit = .returned) :
    ∃ tok k res days,
      (main w).signCalls = [(tok, k)] ∧ w.sign tok k = .ok res ∧
      (main w).stdout = res ++ "\n" ∧ 3 < w.args.length ∧
      (if w.args.length > 4 then atoi (w.args.getD 4 "") else .ok 0) = .ok days ∧
      tok.payload.map Prod.fst =
        ["iss", "iat", "sub", "nam", "aud"] ++ (if days > 0 then ["exp"] else []) ∧
      tok.payload.lookup "iss" = some (.str w.clusterName) ∧
      tok.payload.lookup "iat" = some (.int (w.clock 0).unix) ∧
      tok.payload.lookup "sub" = some (.str (w.args.getD 3 "")) ∧
      tok.payload.lookup "nam" = some (.str (w.args.getD 2 "")) ∧
      tok.payload.lookup "aud" = some (.str "directory.atonline.com") := by
  have h3 : 3 < w.args.length := by
    by_contra hc
    have := (main_gen_short w hlen (by omega) hgen).1
    rw [hret] at this
    exact absurd this (by simp)
  rcases main_gen_outcome w h3 hgen with ⟨_, he, _⟩ | ⟨_, _, _, _, _, he, _⟩ |
    ⟨tok, k, res, hsc, hsig, _, hout⟩
  · rw [hret] at he
    exact absurd he (by simp)
  · rw [hret] at he
    exact absurd he (by simp)
  · obtain ⟨_, _, days, _, _, _, _, _, _, _, _, _, hexp, _, _, _, _, htok⟩ :=
      main_signCalls w tok k (by rw [hsc]; exact List.mem_singleton_self _)
    refine ⟨tok, k, res, days, hsc, hsig, hout, h3, hexp, ?_⟩
    subst htok
    by_cases hd : days > 0 <;> simp [List.lookup, hd]

/-- C4, on a sample: the run for `host1` with 30 days. -/
theorem gen_payload_claims_witness :
    ∃ (tok : Token) (k : Key) (res : String) (days : Int),
      (main (sampleWorld sampleEd25519
        ["jwttool", "gen", "host1", sampleHostKey, "30"])).signCalls = [(tok, k)] ∧
      days = 30 ∧ res = "signed.MCowBQYDK2VwAyEA11qYAYKxCrfVS_7TyWQHOg7hcvPapiMlrwIaaPcHURo" ∧
      tok.payload.lookup "sub" = some (.str sampleHostKey) ∧
      tok.payload.map Prod.fst = ["iss", "iat", "sub", "nam", "aud", "exp"] := by
  obtain ⟨tok, k, res, days, hsc, hsig, hout, _, hexp, hkeys, _, _, hsub, _, _⟩ :=
    gen_payload_claims
      (sampleWorld sampleEd25519 ["jwttool", "gen", "host1", sampleHostKey, "30"])
      (by decide) (by decide) (by decide)
  have hd : days = 30 := by
    have h30 : (if (sampleWorld sampleEd25519
        ["jwttool", "gen", "host1", sampleHostKey, "30"]).args.length > 4
        then atoi ((sampleWorld sampleEd25519
          ["jwttool", "gen", "host1", sampleHostKey, "30"]).args.getD 4 "")
        else Except.ok 0) = Except.ok 30 := rfl
    rw [h30, Except.ok.injEq] at hexp
    exact hexp.symm
  have hres : (main (sampleWorld sampleEd25519
      ["jwttool", "gen", "host1", sampleHostKey, "30"])).stdout =
      "signed.MCowBQYDK2VwAyEA11qYAYKxCrfVS_7TyWQHOg7hcvPapiMlrwIaaPcHURo\n" := by decide
  refine ⟨tok, k, res, days, hsc, hd, ?_, hsub, ?_⟩
  · rw [hres] at hout
    have := congrArg String.data hout
    simp only [String.data_append] at this
    apply String.ext
    exact (List.append_cancel_right this).symm
  · rw [hkeys, hd]
    rfl

/-! ## Failing before the signer -/

/-- C5, as stated, fails: a key argument with a line break in it, and one
whose unused trailing bits are not zero, are not unpadded base64url, yet the
decoder reads both as the bytes of the sample host key, and `gen` calls the
signer, prints the token and ends with status 0. -/
theorem gen_accepts_key_with_line_break :
    Char.ofNat 10 ∈ wrappedHostKey.data ∧ Char.ofNat 10 ∉ encodeURL ∧
      decodeString wrappedHostKey = .ok sampleHostDer ∧
      (main (sampleWorld sampleEd25519
        ["jwttool", "gen", "host1", wrappedHostKey])).signCalls.length = 1 ∧
      (main (sampleWorld sampleEd25519 ["jwttool", "gen", "host1", wrappedHostKey])).stdout =
        "signed." ++ kidEd25519 ++ "\n" ∧
      (main (sampleWorld sampleEd25519
        ["jwttool", "gen", "host1", wrappedHostKey])).exit.status = 0 ∧
      encodeToString sampleHostDer ≠ slackHostKey ∧
      decodeString slackHostKey = .ok sampleHostDer ∧
      (main (sampleWorld sampleEd25519
        ["jwttool", "gen", "host1", slackHostKey])).signCalls.length = 1 ∧
      (main (sampleWorld sampleEd25519
        ["jwttool", "gen", "host1", slackHostKey])).exit.status = 0 := by
  decide

/-- C5, amended: a `gen` run whose expiration argument does not parse as an
integer, or whose key argument holds a character that is neither in the
URL-safe base64 alphabet nor a carriage return or line feed, or whose key
argument has a number of alphabet characters that is 1 modulo 4, or whose
decoded key does not parse as a PKIX public key, ends with a non-zero status
(1), never calls the signer and writes nothing to standard output. -/
theorem gen_bad_input_fails (w : World) (hlen : 3 < w.args.length)
    (hgen : toLower (w.args.getD 1 "") = "gen")
    (hbad : (4 < w.args.length ∧ ∃ e, atoi (w.args.getD 4 "") = .error e) ∨
      (∃ c ∈ (w.args.getD 3 "").data, c ∉ encodeURL ∧ c ≠ '\n' ∧ c ≠ '\r') ∨
      alphabetCount (w.args.getD 3 "").data % 4 = 1 ∨
      (∃ der e, decodeString (w.args.getD 3 "") = .ok der ∧
        w.parsePKIXPublicKey der = .error e)) :
    (main w).exit = .exited 1 ∧ (main w).exit.status ≠ 0 ∧ (main w).signCalls = [] ∧
      (main w).stdout = "" := by
  have hno : ∀ tok k, (tok, k) ∉ (main w).signCalls := by
    intro tok k hmem
    obtain ⟨_, _, exp, keyBin, _, _, _, _, _, _, _, _, hexp, hdec, hpar, _, _, _⟩ :=
      main_signCalls w tok k hmem
    rcases hbad with ⟨h4, e, he⟩ | hch | hcnt | ⟨der, e, hd, he⟩
    · have h4 : w.args.length > 4 := h4
      rw [if_pos h4, he] at hexp
      exact absurd hexp (by simp)
    · obtain ⟨e, he⟩ := (decodeString_error_iff _).2 (Or.inl hch)
      rw [he] at hdec
      exact absurd hdec (by simp)
    · obtain ⟨e, he⟩ := (decodeString_error_iff _).2 (Or.inr hcnt)
      rw [he] at hdec
      exact absurd hdec (by simp)
    · rw [hd, Except.ok.injEq] at hdec
      rw [← hdec, he] at hpar
      exact absurd hpar (by simp)
  rcases main_gen_outcome w hlen hgen with ⟨hsc, he, ho⟩ | ⟨tok, k, _, hsc, _⟩ |
    ⟨tok, k, _, hsc, _⟩
  · refine ⟨he, ?_, hsc, ho⟩
    rw [he]
    simp [Exit.status]
  · exact absurd (by rw [hsc]; exact List.mem_singleton_self _) (hno tok k)
  · exact absurd (by rw [hsc]; exact List.mem_singleton_self _) (hno tok k)

/-- C5 amended, on samples: a key argument cut short by two characters leaves
a quantum of one character; a key argument with a blank holds a character the
decoder refuses; an expiration of `30d` does not parse. -/
theorem gen_bad_input_fails_witness :
    alphabetCount cutHostKey.data % 4 = 1 ∧
      (main (sampleWorld sampleEd25519 ["jwttool", "gen", "host1", cutHostKey])).exit =
        .exited 1 ∧
      (main (sampleWorld sampleEd25519
        ["jwttool", "gen", "host1", cutHostKey])).signCalls = [] ∧
      (main (sampleWorld sampleEd25519
        ["jwttool", "gen", "host1", "not base64!"])).signCalls = [] ∧
      (main (sampleWorld sampleEd25519
        ["jwttool", "gen", "host1", sampleHostKey, "30d"])).stdout = "" :=
  have h := gen_bad_input_fails
    (sampleWorld sampleEd25519 ["jwttool", "gen", "host1", cutHostKey])
    (by decide) (by decide) (Or.inr (Or.inr (Or.inl (by decide))))
  have h2 := gen_bad_input_fails
    (sampleWorld sampleEd25519 ["jwttool", "gen", "host1", "not base64!"])
    (by decide) (by decide) (Or.inr (Or.inl ⟨Char.ofNat 32, by decide, by decide⟩))
  have h3 := gen_bad_input_fails
    (sampleWorld sampleEd25519 ["jwttool", "gen", "host1", sampleHostKey, "30d"])
    (by decide) (by decide) (Or.inl ⟨by decide, .invalid, by decide⟩)
  ⟨by decide, h.1, h.2.2.1, h2.2.2.1, h3.2.2.2⟩

/-- C6: when the security module answers the lookup for the cluster with an
empty list, every run with a subcommand, so every `gen` run whatever its
arguments, exits with status 1, never calls the signer and writes nothing to
standard output. -/
theorem empty_lookup_fails (w : World) (hs : HSM) (hlen : 1 < w.args.length)
    (hnew : w.hsmNew = .ok hs)
    (hlist : hs.listKeysByName ("seidan:" ++ w.clusterName) = .ok []) :
    (main w).exit = .exited 1 ∧ (main w).exit.status ≠ 0 ∧ (main w).signCalls = [] ∧
      (main w).stdout = "" := by
  have h1 : ¬ w.args.length ≤ 1 := by omega
  simp [main, h1, hnew, hlist, Exit.status]

/-- C6, on a sample: the only key is registered under `seidan:test`, so with
`CLUSTER` unset the lookup of `seidan:default` is empty. -/
theorem empty_lookup_fails_witness :
    (main { sampleWorld sampleEd25519 ["jwttool", "gen", "host1", sampleHostKey, "30"] with
        environ := fun _ => none }).exit = .exited 1 ∧
      (main { sampleWorld sampleEd25519 ["jwttool", "gen", "host1", sampleHostKey, "30"] with
        environ := fun _ => none }).stdout = "" :=
  have h := empty_lookup_fails
    { sampleWorld sampleEd25519 ["jwttool", "gen", "host1", sampleHostKey, "30"] with
      environ := fun _ => none }
    (sampleHSM sampleEd25519) (by decide) rfl rfl
  ⟨h.1, h.2.2.2⟩

/-! ## The key identifier -/

/-- C7: in every `gen` run that returns, the signing handle is the first key of
the lookup, and the `kid` header of the token it signed is the unpadded
base64url encoding of the PKIX encoding of that handle's public key; decoding
`kid` gives that PKIX encoding back. -/
theorem kid_is_signer_public_key (w : World) (hlen : 1 < w.args.length)
    (hgen : toLower (w.args.getD 1 "") = "gen") (hret : (main w).exit = .returned) :
    ∃ hs k ks kidBin tok res kid,
      w.hsmNew = .ok hs ∧
      hs.listKeysByName ("seidan:" ++ w.clusterName) = .ok (k :: ks) ∧
      (main w).signCalls = [(tok, k)] ∧ w.sign tok k = .ok res ∧
      (main w).stdout = res ++ "\n" ∧
      w.marshalPKIXPublicKey k.pub = .ok kidBin ∧
      tok.header.lookup "kid" = some kid ∧
      kid = encodeToString kidBin ∧
      decodeString kid = .ok kidBin := by
  have h3 : 3 < w.args.length := by
    by_contra hc
    have := (main_gen_short w hlen (by omega) hgen).1
    rw [hret] at this
    exact absurd this (by simp)
  rcases main_gen_outcome w h3 hgen with ⟨_, he, _⟩ | ⟨_, _, _, _, _, he, _⟩ |
    ⟨tok, k, res, hsc, hsig, _, hout⟩
  · rw [hret] at he
    exact absurd he (by simp)
  · rw [hret] at he
    exact absurd he (by simp)
  · obtain ⟨hs, ks, _, _, _, _, kidBin, _, hnew, hlist, _, _, _, _, _, _, hmar, htok⟩ :=
      main_signCalls w tok k (by rw [hsc]; exact List.mem_singleton_self _)
    refine ⟨hs, k, ks, kidBin, tok, res, encodeToString kidBin, hnew, hlist, hsc, hsig, hout,
      hmar, ?_, rfl, decodeString_encodeToString kidBin⟩
    rw [htok]
    simp [List.lookup]

/-- C7, on a sample: the `kid` of the Ed25519 signing key. -/
theorem kid_is_signer_public_key_witness :
    ∃ (tok : Token) (kidBin : List Byte),
      (main (sampleWorld sampleEd25519
        ["jwttool", "gen", "host1", sampleHostKey])).signCalls =
        [(tok, sampleKey sampleEd25519)] ∧
      sampleMarshal sampleEd25519 = .ok kidBin ∧
      tok.header.lookup "kid" =
        some "MCowBQYDK2VwAyEA11qYAYKxCrfVS_7TyWQHOg7hcvPapiMlrwIaaPcHURo" ∧
      decodeString "MCowBQYDK2VwAyEA11qYAYKxCrfVS_7TyWQHOg7hcvPapiMlrwIaaPcHURo" =
        .ok kidBin := by
  obtain ⟨hs, k, ks, kidBin, tok, res, kid, hnew, hlist, hsc, _, _, hmar, hhdr, hkid, hdec⟩ :=
    kid_is_signer_public_key
      (sampleWorld sampleEd25519 ["jwttool", "gen", "host1", sampleHostKey])
      (by decide) (by decide) (by decide)
  have hnew2 : sampleHSM sampleEd25519 = hs := by
    have : (sampleWorld sampleEd25519 ["jwttool", "gen", "host1", sampleHostKey]).hsmNew =
        .ok (sampleHSM sampleEd25519) := rfl
    rw [this, Except.ok.injEq] at hnew
    exact hnew
  subst hnew2
  have hk : sampleKey sampleEd25519 = k := by
    have : (sampleHSM sampleEd25519).listKeysByName ("seidan:" ++
        (sampleWorld sampleEd25519 ["jwttool", "gen", "host1", sampleHostKey]).clusterName) =
        .ok [sampleKey sampleEd25519] := by decide
    rw [this, Except.ok.injEq, List.cons.injEq] at hlist
    exact hlist.1
  subst hk
  have hm : sampleMarshal sampleEd25519 = .ok kidBin := hmar
  have hval : kid = "MCowBQYDK2VwAyEA11qYAYKxCrfVS_7TyWQHOg7hcvPapiMlrwIaaPcHURo" := by
    rw [sampleEd25519_marshals.1, Except.ok.injEq] at hm
    rw [hkid, ← hm]
    exact sampleEd25519_marshals.2
  rw [hval] at hhdr hdec
  exact ⟨tok, kidBin, hsc, hm, hhdr, hdec⟩

/-! ## The cluster identity -/

/-- C8: with `ident` the value of `CLUSTER` when that is set and not empty and
the string default otherwise, every lookup `main` makes is for the name
`seidan:` followed by `ident`, there is exactly one such lookup once the
security module is there, and every token handed to the signer has `ident` as
its iss claim. -/
theorem cluster_identity (w : World) (ident : String)
    (hid : ident = match w.environ "CLUSTER" with
      | some c => if c = "" then "default" else c
      | none => "default") :
    (∀ q, q ∈ (main w).lookups → q = "seidan:" ++ ident) ∧
    (∀ hs, 1 < w.args.length → w.hsmNew = .ok hs →
      (main w).lookups = ["seidan:" ++ ident]) ∧
    (∀ tok k, (tok, k) ∈ (main w).signCalls →
      tok.payload.lookup "iss" = some (.str ident)) := by
  have hcn : w.clusterName = ident := by rw [hid, clusterName_eq]
  refine ⟨?_, ?_, ?_⟩
  · intro q hq
    rw [← hcn]
    exact main_lookups_mem w q hq
  · intro hs hlen hnew
    rw [← hcn]
    exact main_lookups_ok w hs hlen hnew
  · intro tok k hmem
    obtain ⟨_, _, _, _, _, _, _, _, _, _, _, _, _, _, _, _, _, rfl⟩ := main_signCalls w tok k hmem
    rw [← hcn]
    simp [List.lookup]

/-- C8, on a sample: with `CLUSTER` set to `test` the lookup is for
`seidan:test` and the issuer is `test`. -/
theorem cluster_identity_witness :
    (main (sampleWorld sampleEd25519 ["jwttool", "gen", "host1", sampleHostKey])).lookups =
        ["seidan:test"] ∧
      ∀ tok k, (tok, k) ∈
        (main (sampleWorld sampleEd25519
          ["jwttool", "gen", "host1", sampleHostKey])).signCalls →
        tok.payload.lookup "iss" = some (.str "test") :=
  have h := cluster_identity
    (sampleWorld sampleEd25519 ["jwttool", "gen", "host1", sampleHostKey]) "test" rfl
  ⟨h.2.1 (sampleHSM sampleEd25519) (by decide) rfl, h.2.2⟩

/-! ## Other subcommands -/

/-- C9, as stated, fails: with a subcommand other than `gen` and a security
module that cannot be reached, the run calls `os.Exit(1)` and never logs that
no valid command was provided. -/
theorem unknown_command_with_offline_module :
    toLower "status" ≠ "gen" ∧
      (main (offlineWorld ["jwttool", "status"])).exit = .exited 1 ∧
      (main (offlineWorld ["jwttool", "status"])).exit.status = 1 ∧
      (main (offlineWorld ["jwttool", "status"])).log =
        ["failed to initialize HSM: no token present"] := by
  decide

/-- C9, amended: when the security module is there and the lookup for the
cluster returns at least one key, every run whose subcommand is not `gen`
(compared without regard to case) logs that no valid command was provided,
makes no call of `os.Exit`, ends with status 0, never calls the signer and
writes nothing to standard output. -/
theorem unknown_command_falls_through (w : World) (hs : HSM) (k : Key) (ks : List Key)
    (hlen : 1 < w.args.length) (hcmd : toLower (w.args.getD 1 "") ≠ "gen")
    (hnew : w.hsmNew = .ok hs)
    (hlist : hs.listKeysByName ("seidan:" ++ w.clusterName) = .ok (k :: ks)) :
    (main w).log = ["found key: " ++ k.name, "no valid command provided"] ∧
      (main w).exit = .returned ∧ (main w).exit.status = 0 ∧ (main w).stdout = "" ∧
      (main w).signCalls = [] := by
  have h1 : ¬ w.args.length ≤ 1 := by omega
  simp only [main, h1, hnew, hlist, hcmd, ↓reduceIte, Exit.status, and_self]

/-- C9 amended, on a sample: the subcommand `status`. -/
theorem unknown_command_falls_through_witness :
    (main (sampleWorld sampleEd25519 ["jwttool", "status"])).log =
        ["found key: cluster-key", "no valid command provided"] ∧
      (main (sampleWorld sampleEd25519 ["jwttool", "status"])).exit = .returned :=
  have h := unknown_command_falls_through
    (sampleWorld sampleEd25519 ["jwttool", "status"]) (sampleHSM sampleEd25519)
    (sampleKey sampleEd25519) [] (by decide) (by decide) rfl rfl
  ⟨h.1, h.2.1⟩

/-! ## A negative expiration -/

/-- C10: an expiration argument that parses as a negative integer is not
refused: the whole run is the same as without the argument and the same as
with the argument 0, no token handed to the signer has an exp claim, and when
every other step succeeds the signer is called and its result is printed. -/
theorem gen_negative_expiration (w : World) (d : Int) (hlen : 4 < w.args.length)
    (hparse : atoi (w.args.getD 4 "") = .ok d) (hneg : d < 0) :
    main w = main { w with args := w.args.take 4 } ∧
    main w = main { w with args := w.args.take 4 ++ ["0"] } ∧
    (∀ tok k, (tok, k) ∈ (main w).signCalls → tok.payload.lookup "exp" = none) ∧
    (∀ hs k ks keyBin pk algo kidBin,
      toLower (w.args.getD 1 "") = "gen" → w.hsmNew = .ok hs →
      hs.listKeysByName ("seidan:" ++ w.clusterName) = .ok (k :: ks) →
      decodeString (w.args.getD 3 "") = .ok keyBin →
      w.parsePKIXPublicKey keyBin = .ok pk →
      jwtAlgoOf k.pub = some algo →
      w.marshalPKIXPublicKey k.pub = .ok kidBin →
      ∃ tok, (main w).signCalls = [(tok, k)] ∧
        ∀ res, w.sign tok k = .ok res →
          (main w).exit = .returned ∧ (main w).stdout = res ++ "\n") := by
  have h1 : ¬ w.args.length ≤ 1 := by omega
  have h3 : ¬ w.args.length ≤ 3 := by omega
  have hd : ¬ d > 0 := by omega
  have h4 : w.args.length > 4 := hlen
  have h00 : ¬ (0 : Int) > 0 := by omega
  refine ⟨?_, ?_, ?_, ?_⟩
  · have e0 : (w.args.take 4).getD 0 "" = w.args.getD 0 "" := by
      simp [List.getD_eq_getElem?_getD, List.getElem?_take]
    have e1 : (w.args.take 4).getD 1 "" = w.args.getD 1 "" := by
      simp [List.getD_eq_getElem?_getD, List.getElem?_take]
    have e2 : (w.args.take 4).getD 2 "" = w.args.getD 2 "" := by
      simp [List.getD_eq_getElem?_getD, List.getElem?_take]
    have e3 : (w.args.take 4).getD 3 "" = w.args.getD 3 "" := by
      simp [List.getD_eq_getElem?_getD, List.getElem?_take]
    have hl : (w.args.take 4).length = 4 := by simp; omega
    have h44 : ¬ 4 > 4 := by omega
    have h41 : ¬ 4 ≤ 1 := by omega
    have h43 : ¬ 4 ≤ 3 := by omega
    simp only [main, World.clusterName, World.getenv, e0, e1, e2, e3, hl, hparse, h4, h1, h3, hd,
      h00, h44, h41, h43, ↓reduceIte]
  · have e0 := getD_take_append w.args ["0"] 0 (by omega) (by omega)
    have e1 := getD_take_append w.args ["0"] 1 (by omega) (by omega)
    have e2 := getD_take_append w.args ["0"] 2 (by omega) (by omega)
    have e3 := getD_take_append w.args ["0"] 3 (by omega) (by omega)
    have e4 : (w.args.take 4 ++ ["0"]).getD 4 "" = "0" := by
      rcases hw : w.args with _ | ⟨a, _ | ⟨b, _ | ⟨c, _ | ⟨e, rest⟩⟩⟩⟩
      all_goals first
        | rfl
        | (rw [hw] at hlen; simp at hlen)
    have hl : (w.args.take 4 ++ ["0"]).length = 5 := by simp; omega
    have hz : atoi "0" = .ok 0 := rfl
    have h54 : 5 > 4 := by omega
    have h51 : ¬ 5 ≤ 1 := by omega
    have h53 : ¬ 5 ≤ 3 := by omega
    simp only [main, World.clusterName, World.getenv, e0, e1, e2, e3, e4, hl, hparse, hz, h4, h1,
      h3, hd, h00, h54, h51, h53, ↓reduceIte]
  · intro tok k hmem
    obtain ⟨_, _, exp, _, _, _, _, _, _, _, _, _, hexp, _, _, _, _, rfl⟩ :=
      main_signCalls w tok k hmem
    rw [if_pos h4, hparse, Except.ok.injEq] at hexp
    subst hexp
    simp [List.lookup, hd]
  · intro hs k ks keyBin pk algo kidBin hgen hnew hlist hdec hpar halg hmar
    simp only [main, h1, h3, h4, hnew, hlist, hgen, hparse, hdec, hpar, halg, hmar, hd,
      ↓reduceIte]
    split
    · rename_i err hsig
      refine ⟨_, rfl, ?_⟩
      intro res hres
      rw [hsig] at hres
      exact absurd hres (by simp)
    · rename_i res0 hsig
      refine ⟨_, rfl, ?_⟩
      intro res hres
      rw [hsig, Except.ok.injEq] at hres
      subst hres
      exact ⟨rfl, rfl⟩

/-- C10, on a sample: the argument `-5` gives the run, and the printed token,
of no argument at all. -/
theorem gen_negative_expiration_witness :
    atoi "-5" = .ok (-5) ∧
      main (sampleWorld sampleEd25519 ["jwttool", "gen", "host1", sampleHostKey, "-5"]) =
        main (sampleWorld sampleEd25519 ["jwttool", "gen", "host1", sampleHostKey]) ∧
      (main (sampleWorld sampleEd25519
        ["jwttool", "gen", "host1", sampleHostKey, "-5"])).exit = .returned :=
  ⟨rfl,
    (gen_negative_expiration
      (sampleWorld sampleEd25519 ["jwttool", "gen", "host1", sampleHostKey, "-5"]) (-5)
      (by decide) rfl (by decide)).1,
    by decide⟩

end JwtTool
